import Mathlib

/-!
Shallow embedding of the multi-session orchestration core of the
oh-my-claudeclaw repository, together with theorems settling the
specification claims about it.

The embedding follows the TypeScript sources:
  * `src/session-registry.ts`  — durable registry of session entries;
  * `src/runner.ts`            — per-key execution queue (`enqueue`),
    rotation policy (`checkAndRotate`), and the invocation executor
    (`execClaude` / `run`);
  * `src/token-estimator.ts`   — transcript-based token estimator;
  * the Telegram message-map and classifier module
    (`recordMessageSession` / `saveMap` / `classifyMessage`).

Effectful host primitives (clock, file system, process spawning, JSON
parsing, regular-expression matching) are modelled as explicit inputs
(oracles) to otherwise-pure functions, so that every definition is
executable and the control flow of the source is preserved verbatim.
-/

namespace ClaudeClaw

/-! ### String helpers

JS `String.prototype.includes`, `trim`, and lower-casing, modelled over
`List Char`.  `hasSub pat l` decides whether `pat` occurs as a contiguous
run inside `l`. -/

/-- Does `l` start with `pat`? -/
def leadsWith : List Char → List Char → Bool
  | [], _ => true
  | _ :: _, [] => false
  | a :: as, b :: bs => a == b && leadsWith as bs

/-- Does `pat` occur contiguously inside `l`? (JS `includes` / regex literal search.) -/
def hasSub (pat : List Char) : List Char → Bool
  | [] => leadsWith pat []
  | c :: rest => leadsWith pat (c :: rest) || hasSub pat rest

/-- JS `s.includes(pat)` on strings. -/
def strContains (s pat : String) : Bool :=
  hasSub pat.toList s.toList

/-- JS `String.prototype.trim` (whitespace stripped from both ends). -/
def jsTrim (s : String) : String :=
  ⟨(s.toList.dropWhile Char.isWhitespace).reverse.dropWhile Char.isWhitespace |>.reverse⟩

/-- Lower-case every character (model of the `i` regex flag / `toLowerCase`). -/
def toLowerL (l : List Char) : List Char := l.map Char.toLower

theorem leadsWith_app (pat rest : List Char) : leadsWith pat (pat ++ rest) = true := by
  induction pat with
  | nil => rfl
  | cons a as ih => simp [leadsWith, ih]

theorem hasSub_of_app_left (pat l r : List Char) (h : hasSub pat r = true) :
    hasSub pat (l ++ r) = true := by
  induction l with
  | nil => simpa using h
  | cons c cs ih =>
    cases r with
    | nil => simp [hasSub] at h ⊢; cases pat <;> simp_all [leadsWith]
    | cons d ds =>
      simp only [List.cons_append, hasSub, Bool.or_eq_true]
      right
      simpa using ih

theorem hasSub_nil (l : List Char) : hasSub [] l = true := by
  cases l <;> simp [hasSub, leadsWith]

theorem hasSub_self_app (pat r : List Char) : hasSub pat (pat ++ r) = true := by
  cases pat with
  | nil => exact hasSub_nil r
  | cons a as =>
    have h := leadsWith_app (a :: as) r
    simp only [List.cons_append] at h ⊢
    simp [hasSub, h]

theorem hasSub_middle (pat l r : List Char) : hasSub pat (l ++ (pat ++ r)) = true :=
  hasSub_of_app_left pat l (pat ++ r) (hasSub_self_app pat r)

/-! ### Session registry (`src/session-registry.ts`)

The registry is a JSON file holding a list of `SessionEntry` records.
Clock reads (`new Date().toISOString()`, `Date.now()`) are passed in as
explicit `now` arguments. -/

structure SessionEntry where
  sessionId : String
  group : String
  createdAt : String
  lastUsedAt : String
  contentTokens : Nat
  summary : Option String
deriving DecidableEq, Repr

structure Registry where
  sessions : List SessionEntry
deriving DecidableEq, Repr

/-- The marker embedded in archival group names. -/
def archivedMark : String := "__archived_"

/-- `reg.sessions.find(s => s.group === group)` — first entry for a group. -/
def findGroup : List SessionEntry → String → Option SessionEntry
  | [], _ => none
  | e :: rest, g => if e.group == g then some e else findGroup rest g

/-- Body of `getSessionForGroup`: find the first entry for the group and,
if present, refresh its `lastUsedAt` in place. Returns the (refreshed)
entry and the updated list. -/
def getList : List SessionEntry → String → String → Option SessionEntry × List SessionEntry
  | [], _, _ => (none, [])
  | e :: rest, g, now =>
    if e.group == g then
      let e' := { e with lastUsedAt := now }
      (some e', e' :: rest)
    else
      let p := getList rest g now
      (p.1, e :: p.2)

def getSessionForGroup (reg : Registry) (group now : String) :
    Option SessionEntry × Registry :=
  let p := getList reg.sessions group now
  (p.1, ⟨p.2⟩)

/-- Body of `createSessionForGroup`: replace the first entry for the group
(`findIndex` + assignment) or push a fresh one. -/
def createList : List SessionEntry → String → SessionEntry → List SessionEntry
  | [], _, entry => [entry]
  | e :: rest, g, entry =>
    if e.group == g then entry :: rest else e :: createList rest g entry

def createSessionForGroup (reg : Registry) (group sessionId now : String) :
    SessionEntry × Registry :=
  let entry : SessionEntry :=
    { sessionId := sessionId, group := group, createdAt := now,
      lastUsedAt := now, contentTokens := 0, summary := none }
  (entry, ⟨createList reg.sessions group entry⟩)

/-- Body of `updateTokenCount`: overwrite `contentTokens` on the first
entry for the group; no-op when absent. -/
def updateTokList : List SessionEntry → String → Nat → List SessionEntry
  | [], _, _ => []
  | e :: rest, g, n =>
    if e.group == g then { e with contentTokens := n } :: rest
    else e :: updateTokList rest g n

def updateTokenCount (reg : Registry) (group : String) (tokens : Nat) : Registry :=
  ⟨updateTokList reg.sessions group tokens⟩

/-- Body of `rotateSession`: rename the group field of the first entry to the
archival name; `if (summary) old.summary = summary` keeps JS truthiness
(an empty-string summary is not recorded). -/
def rotateList : List SessionEntry → String → Option String → String →
    Option String × List SessionEntry
  | [], _, _, _ => (none, [])
  | e :: rest, g, summ, aname =>
    if e.group == g then
      let summary' := match summ with
        | some s => if s = "" then e.summary else some s
        | none => e.summary
      (some e.sessionId, { e with group := aname, summary := summary' } :: rest)
    else
      let p := rotateList rest g summ aname
      (p.1, e :: p.2)

/-- Archival name: `` `${group}__archived_${Date.now()}` ``. -/
def archiveName (group : String) (nowMs : Nat) : String :=
  group ++ archivedMark ++ toString nowMs

def rotateSession (reg : Registry) (group : String) (summary : Option String)
    (nowMs : Nat) : Option String × Registry :=
  let p := rotateList reg.sessions group summary (archiveName group nowMs)
  (p.1, ⟨p.2⟩)

/-- `listSessions`: entries whose group does not contain `"__archived_"`. -/
def listSessions (reg : Registry) : List SessionEntry :=
  reg.sessions.filter (fun s => ! strContains s.group archivedMark)

/-- `listAllSessions`: every entry, live and archived. -/
def listAllSessions (reg : Registry) : List SessionEntry :=
  reg.sessions

/-- A group name is "live" when it is not an archival name. -/
def isLiveName (g : String) : Bool := ! strContains g archivedMark

/-- Number of entries recorded under exactly the group name `g`. -/
def countGroup (l : List SessionEntry) (g : String) : Nat :=
  l.countP (fun e => e.group == g)

/-- Registry invariant: at most one entry per live (non-archival) group name. -/
def RegInv (reg : Registry) : Prop :=
  ∀ g : String, isLiveName g = true → countGroup reg.sessions g ≤ 1

/-- One abstract registry operation (clock readings are part of the operation). -/
inductive RegOp where
  | get (group now : String)
  | create (group sessionId now : String)
  | updateTok (group : String) (tokens : Nat)
  | archive (group : String) (summary : Option String) (nowMs : Nat)
  | listLive
  | listAll

def applyOp (reg : Registry) : RegOp → Registry
  | .get g now => (getSessionForGroup reg g now).2
  | .create g sid now => (createSessionForGroup reg g sid now).2
  | .updateTok g n => updateTokenCount reg g n
  | .archive g s t => (rotateSession reg g s t).2
  | .listLive => reg
  | .listAll => reg

def applyOps (reg : Registry) (ops : List RegOp) : Registry :=
  ops.foldl applyOp reg

/-! Counting lemmas for the registry operations. -/

theorem countGroup_getList (l : List SessionEntry) (g now g' : String) :
    countGroup (getList l g now).2 g' = countGroup l g' := by
  induction l with
  | nil => rfl
  | cons e rest ih =>
    cases hc : e.group == g with
    | true => simp [getList, hc, countGroup, List.countP_cons]
    | false =>
      have ih' : List.countP (fun x => x.group == g') (getList rest g now).2
          = List.countP (fun x => x.group == g') rest := ih
      simp [getList, hc, countGroup, List.countP_cons, ih']

theorem countGroup_updateTokList (l : List SessionEntry) (g : String) (n : Nat) (g' : String) :
    countGroup (updateTokList l g n) g' = countGroup l g' := by
  induction l with
  | nil => rfl
  | cons e rest ih =>
    cases hc : e.group == g with
    | true => simp [updateTokList, hc, countGroup, List.countP_cons]
    | false =>
      have ih' : List.countP (fun x => x.group == g') (updateTokList rest g n)
          = List.countP (fun x => x.group == g') rest := ih
      simp [updateTokList, hc, countGroup, List.countP_cons, ih']

theorem findGroup_none_countGroup (l : List SessionEntry) (g : String)
    (h : findGroup l g = none) : countGroup l g = 0 := by
  induction l with
  | nil => rfl
  | cons e rest ih =>
    cases hc : e.group == g with
    | true => simp [findGroup, hc] at h
    | false =>
      simp [findGroup, hc] at h
      have h0 : List.countP (fun x => x.group == g) rest = 0 := ih h
      simp [countGroup, List.countP_cons, hc, h0]

theorem createList_of_none (l : List SessionEntry) (g : String) (entry : SessionEntry)
    (h : findGroup l g = none) : createList l g entry = l ++ [entry] := by
  induction l with
  | nil => rfl
  | cons e rest ih =>
    cases hc : e.group == g with
    | true => simp [findGroup, hc] at h
    | false =>
      simp [findGroup, hc] at h
      simp [createList, hc, ih h]

theorem countGroup_createList_found (l : List SessionEntry) (g : String)
    (entry : SessionEntry) (hg : entry.group = g) (h : (findGroup l g).isSome = true)
    (g' : String) : countGroup (createList l g entry) g' = countGroup l g' := by
  induction l with
  | nil => simp [findGroup] at h
  | cons e rest ih =>
    cases hc : e.group == g with
    | true =>
      have he : e.group = g := by simpa using hc
      simp [createList, hc, countGroup, List.countP_cons, hg, he]
    | false =>
      simp [findGroup, hc] at h
      have ih' : List.countP (fun x => x.group == g') (createList rest g entry)
          = List.countP (fun x => x.group == g') rest := ih h
      simp [createList, hc, countGroup, List.countP_cons, ih']

theorem countGroup_rotateList_le (l : List SessionEntry) (g : String)
    (s : Option String) (aname g' : String) (hne : aname ≠ g') :
    countGroup (rotateList l g s aname).2 g' ≤ countGroup l g' := by
  induction l with
  | nil => simp [rotateList]
  | cons e rest ih =>
    cases hc : e.group == g with
    | true =>
      have hfalse : (aname == g') = false := by simpa using hne
      simp [rotateList, hc, countGroup, List.countP_cons, hfalse]
    | false =>
      have ih' : List.countP (fun x => x.group == g') (rotateList rest g s aname).2
          ≤ List.countP (fun x => x.group == g') rest := ih
      simp [rotateList, hc, countGroup, List.countP_cons]
      exact ih'

theorem strContains_archiveName (g : String) (t : Nat) :
    strContains (archiveName g t) archivedMark = true := by
  have hdata : (archiveName g t).toList
      = g.toList ++ (archivedMark.toList ++ (toString t).toList) := by
    simp [archiveName, String.toList, String.data_append]
  simp only [strContains, hdata]
  exact hasSub_middle archivedMark.toList g.toList (toString t).toList

/-- Every single operation preserves the registry invariant. -/
theorem applyOp_preserves_inv (reg : Registry) (op : RegOp) (h : RegInv reg) :
    RegInv (applyOp reg op) := by
  cases op with
  | get g now =>
    intro g' hg'
    simpa [applyOp, getSessionForGroup, countGroup_getList] using h g' hg'
  | create g sid now =>
    intro g' hg'
    simp only [applyOp, createSessionForGroup]
    cases hf : findGroup reg.sessions g with
    | some e =>
      rw [countGroup_createList_found reg.sessions g _ rfl (by simp [hf]) g']
      exact h g' hg'
    | none =>
      rw [createList_of_none reg.sessions g _ hf]
      by_cases hgg : g = g'
      · subst hgg
        have h0 : List.countP (fun x => x.group == g) reg.sessions = 0 :=
          findGroup_none_countGroup reg.sessions g hf
        simp [countGroup, List.countP_append, List.countP_cons, h0]
      · have : ((⟨sid, g, now, now, 0, none⟩ : SessionEntry).group == g') = false := by
          simpa using hgg
        simp [countGroup, List.countP_append, this]
        exact h g' hg'
  | updateTok g n =>
    intro g' hg'
    simpa [applyOp, updateTokenCount, countGroup_updateTokList] using h g' hg'
  | archive g s t =>
    intro g' hg'
    have hne : archiveName g t ≠ g' := by
      intro hEq
      have := strContains_archiveName g t
      rw [hEq] at this
      simp [isLiveName] at hg'
      rw [hg'] at this
      exact absurd this (by simp)
    calc countGroup (applyOp reg (.archive g s t)).sessions g'
        ≤ countGroup reg.sessions g' :=
          countGroup_rotateList_le reg.sessions g s _ g' hne
      _ ≤ 1 := h g' hg'
  | listLive => exact h
  | listAll => exact h

theorem applyOps_preserves_inv (reg : Registry) (ops : List RegOp) (h : RegInv reg) :
    RegInv (applyOps reg ops) := by
  induction ops generalizing reg with
  | nil => exact h
  | cons op rest ih => exact ih _ (applyOp_preserves_inv reg op h)

/-! Lookup behaviour of `createSessionForGroup` and `getSessionForGroup`. -/

theorem findGroup_createList (l : List SessionEntry) (g : String)
    (entry : SessionEntry) (hg : entry.group = g) :
    findGroup (createList l g entry) g = some entry := by
  induction l with
  | nil => simp [createList, findGroup, hg]
  | cons e rest ih =>
    cases hc : e.group == g with
    | true => simp [createList, hc, findGroup, hg]
    | false => simp [createList, hc, findGroup, ih]

theorem getList_fst (l : List SessionEntry) (g now : String) :
    (getList l g now).1 = (findGroup l g).map (fun e => { e with lastUsedAt := now }) := by
  induction l with
  | nil => rfl
  | cons e rest ih =>
    cases hc : e.group == g with
    | true => simp [getList, hc, findGroup]
    | false => simp [getList, hc, findGroup, ih]

theorem getList_snd_of_none (l : List SessionEntry) (g now : String)
    (h : findGroup l g = none) : (getList l g now).2 = l := by
  induction l with
  | nil => rfl
  | cons e rest ih =>
    cases hc : e.group == g with
    | true => simp [findGroup, hc] at h
    | false =>
      simp only [findGroup, hc] at h
      simp [getList, hc, ih h]

theorem createList_length_found (l : List SessionEntry) (g : String)
    (entry : SessionEntry) (h : (findGroup l g).isSome = true) :
    (createList l g entry).length = l.length := by
  induction l with
  | nil => simp [findGroup] at h
  | cons e rest ih =>
    cases hc : e.group == g with
    | true => simp [createList, hc]
    | false =>
      simp only [findGroup, hc] at h
      simp [createList, hc, ih (by simpa using h)]

/-- **C1.** For every group `G` and every sequence of registry operations
(`get`, `create`, `updateTokenCount`, `archive`, `listLive`, `listAll`)
starting from a state with at most one live (non-archived) entry per group,
the resulting state again has at most one live entry per group; in
particular `create` on a group that already has an entry replaces that
entry rather than adding a second one: the number of records is unchanged
and `get` on that group reaches exactly the new entry. -/
theorem C1_registry_at_most_one_live (reg : Registry) (ops : List RegOp)
    (hinv : RegInv reg) :
    RegInv (applyOps reg ops) ∧
    (∀ g sid now now',
      (findGroup (applyOps reg ops).sessions g).isSome = true →
      ((createSessionForGroup (applyOps reg ops) g sid now).2.sessions.length
          = (applyOps reg ops).sessions.length ∧
        (getSessionForGroup
            (createSessionForGroup (applyOps reg ops) g sid now).2 g now').1
          = some { (createSessionForGroup (applyOps reg ops) g sid now).1 with
                     lastUsedAt := now' })) := by
  refine ⟨applyOps_preserves_inv reg ops hinv, ?_⟩
  intro g sid now now' hsome
  simp only [createSessionForGroup, getSessionForGroup]
  refine ⟨createList_length_found _ g _ hsome, ?_⟩
  rw [getList_fst, findGroup_createList _ g _ rfl]
  rfl

/-- Witness for C1: a concrete run from the empty registry. -/
theorem C1_registry_at_most_one_live_witness :
    RegInv (applyOps ⟨[]⟩ [RegOp.create "ops" "a1" "t1", RegOp.get "ops" "t2"]) ∧
    (createSessionForGroup
        (applyOps ⟨[]⟩ [RegOp.create "ops" "a1" "t1", RegOp.get "ops" "t2"])
        "ops" "a2" "t3").2.sessions.length
      = (applyOps ⟨[]⟩
          [RegOp.create "ops" "a1" "t1", RegOp.get "ops" "t2"]).sessions.length := by
  have h := C1_registry_at_most_one_live ⟨[]⟩
      [RegOp.create "ops" "a1" "t1", RegOp.get "ops" "t2"]
      (by intro g hg; simp [countGroup])
  exact ⟨h.1, (h.2 "ops" "a2" "t3" "t4" (by decide)).1⟩

/-- **C10.** The live listing is decided purely by the substring test
`group.includes("__archived_")`: `listSessions` returns exactly the entries
whose group does not contain that substring, so an entry created live under
a group name containing `"__archived_"` is omitted from `listSessions` even
though `getSessionForGroup` on that exact group name still returns it. -/
theorem C10_listLive_substring_only (reg : Registry) (g sid now now' : String)
    (harch : strContains g archivedMark = true) :
    listSessions reg
        = reg.sessions.filter (fun s => ! strContains s.group archivedMark) ∧
    (createSessionForGroup reg g sid now).1
        ∉ listSessions (createSessionForGroup reg g sid now).2 ∧
    (getSessionForGroup (createSessionForGroup reg g sid now).2 g now').1
      = some { (createSessionForGroup reg g sid now).1 with lastUsedAt := now' } := by
  refine ⟨rfl, ?_, ?_⟩
  · simp only [createSessionForGroup, listSessions]
    intro hmem
    have hpred := (List.mem_filter.mp hmem).2
    simp [harch] at hpred
  · simp only [createSessionForGroup, getSessionForGroup]
    rw [getList_fst, findGroup_createList _ g _ rfl]
    rfl

/-! ### Rotation policy (`checkAndRotate` in `src/runner.ts`)

`estimateSessionTokens` is passed in as an oracle `est`; the configured
threshold (`settings.sessionRotation?.threshold ?? DEFAULT_ROTATION_THRESHOLD`)
is the `threshold` argument. -/

def DEFAULT_ROTATION_THRESHOLD : Nat := 120000

/-- `` `Auto-rotated at ${tokens} tokens` ``. -/
def rotationSummary (tokens : Nat) : String :=
  "Auto-rotated at " ++ toString tokens ++ " tokens"

/-- The threshold actually used: the configured value or the default. -/
def effectiveThreshold (configured : Option Nat) : Nat :=
  configured.getD DEFAULT_ROTATION_THRESHOLD

def checkAndRotate (reg : Registry) (group : String) (est : String → Nat)
    (threshold : Nat) (now : String) (nowMs : Nat) : Registry :=
  let p := getSessionForGroup reg group now
  match p.1 with
  | none => p.2
  | some entry =>
      let tokens := est entry.sessionId
      let reg2 := updateTokenCount p.2 group tokens
      if tokens < threshold then reg2
      else (rotateSession reg2 group (some (rotationSummary tokens)) nowMs).2

theorem countGroup_zero_findGroup (l : List SessionEntry) (g : String)
    (h : countGroup l g = 0) : findGroup l g = none := by
  induction l with
  | nil => rfl
  | cons e rest ih =>
    simp only [countGroup, List.countP_cons] at h
    cases hc : e.group == g with
    | true => simp [hc] at h
    | false =>
      simp only [hc] at h
      simp [findGroup, hc, ih (by simpa [countGroup] using h)]

theorem getList_snd_findGroup (l : List SessionEntry) (g now : String)
    (e : SessionEntry) (h : findGroup l g = some e) :
    findGroup (getList l g now).2 g = some { e with lastUsedAt := now } := by
  induction l with
  | nil => simp [findGroup] at h
  | cons a rest ih =>
    cases hc : a.group == g with
    | true =>
      simp [findGroup, hc] at h
      subst h
      simp [getList, hc, findGroup]
    | false =>
      simp only [findGroup, hc] at h
      simp [getList, hc, findGroup, ih (by simpa using h)]

theorem findGroup_updateTokList (l : List SessionEntry) (g : String) (n : Nat) :
    findGroup (updateTokList l g n) g
      = (findGroup l g).map (fun e => { e with contentTokens := n }) := by
  induction l with
  | nil => rfl
  | cons e rest ih =>
    cases hc : e.group == g with
    | true => simp [updateTokList, hc, findGroup]
    | false => simp [updateTokList, hc, findGroup, ih]

theorem countGroup_one_of_cons (e : SessionEntry) (rest : List SessionEntry)
    (g : String) (hc : (e.group == g) = true)
    (h : countGroup (e :: rest) g ≤ 1) : countGroup rest g = 0 := by
  simp only [countGroup, List.countP_cons, hc, if_pos rfl] at h
  simpa [countGroup] using Nat.le_of_add_le_add_right h

theorem findGroup_rotateList_none (l : List SessionEntry) (g : String)
    (s : Option String) (a : String) (hne : a ≠ g)
    (hcount : countGroup l g ≤ 1) :
    findGroup (rotateList l g s a).2 g = none := by
  induction l with
  | nil => rfl
  | cons e rest ih =>
    cases hc : e.group == g with
    | true =>
      have hrest : countGroup rest g = 0 := countGroup_one_of_cons e rest g hc hcount
      have hag : (a == g) = false := by simpa using hne
      simp [rotateList, hc, findGroup, hag, countGroup_zero_findGroup rest g hrest]
    | false =>
      have hcount' : countGroup rest g ≤ 1 := by
        simpa [countGroup, List.countP_cons, hc] using hcount
      simp [rotateList, hc, findGroup, ih hcount']

theorem archiveName_ne (g : String) (t : Nat) : archiveName g t ≠ g := by
  intro h
  have hlen : (archiveName g t).length = g.length + (archivedMark ++ toString t).length := by
    simp [archiveName, String.length_append, String.append_assoc]
  rw [h] at hlen
  have hmark : 0 < (archivedMark ++ toString t).length := by
    have : 0 < archivedMark.length := by decide
    simp [String.length_append]
    omega
  omega

theorem countGroup_getList' (reg : Registry) (g now g' : String) :
    countGroup (getSessionForGroup reg g now).2.sessions g'
      = countGroup reg.sessions g' :=
  countGroup_getList reg.sessions g now g'

/-- **C3.** For every group with a live entry, `checkAndRotate` archives that
entry if and only if the freshly computed token estimate for the sessionId
of the entry is at or above the configured threshold: below-threshold
estimates leave the entry live (with its token count refreshed), at-or-above
estimates remove the live entry, and when no live entry exists the registry
is returned unchanged. The default threshold is 120000. -/
theorem C3_rotation_iff_threshold (reg : Registry) (g : String)
    (est : String → Nat) (θ : Nat) (now : String) (nowMs : Nat) :
    (findGroup reg.sessions g = none → checkAndRotate reg g est θ now nowMs = reg) ∧
    (∀ e, findGroup reg.sessions g = some e → countGroup reg.sessions g ≤ 1 →
      ((est e.sessionId < θ →
          findGroup (checkAndRotate reg g est θ now nowMs).sessions g
            = some { e with lastUsedAt := now, contentTokens := est e.sessionId }) ∧
       (θ ≤ est e.sessionId →
          findGroup (checkAndRotate reg g est θ now nowMs).sessions g = none))) ∧
    effectiveThreshold none = 120000 := by
  refine ⟨?_, ?_, rfl⟩
  · intro hf
    have h1 : (getList reg.sessions g now).1 = none := by
      rw [getList_fst, hf]; rfl
    have h2 : (getList reg.sessions g now).2 = reg.sessions :=
      getList_snd_of_none reg.sessions g now hf
    simp only [checkAndRotate, getSessionForGroup, h1, h2]
  · intro e hf hcount
    have h1 : (getList reg.sessions g now).1 = some { e with lastUsedAt := now } := by
      rw [getList_fst, hf]; rfl
    constructor
    · intro hlt
      simp only [checkAndRotate, getSessionForGroup, h1]
      rw [if_pos hlt]
      rw [updateTokenCount, findGroup_updateTokList,
        getList_snd_findGroup reg.sessions g now e hf]
      rfl
    · intro hge
      simp only [checkAndRotate, getSessionForGroup, h1]
      rw [if_neg (by exact Nat.not_lt.mpr hge)]
      simp only [rotateSession, updateTokenCount]
      apply findGroup_rotateList_none
      · exact archiveName_ne g nowMs
      · rw [countGroup_updateTokList, countGroup_getList]
        exact hcount

/-- Witness for C3: a registry with one entry at 130000 estimated tokens is
archived at the default threshold, and a group with no entry is untouched. -/
theorem C3_rotation_iff_threshold_witness :
    findGroup (checkAndRotate ⟨[⟨"abc", "ops", "t0", "t0", 0, none⟩]⟩ "ops"
        (fun _ => 130000) 120000 "t1" 99).sessions "ops" = none ∧
    checkAndRotate ⟨[⟨"abc", "ops", "t0", "t0", 0, none⟩]⟩ "idle"
        (fun _ => 130000) 120000 "t1" 99
      = ⟨[⟨"abc", "ops", "t0", "t0", 0, none⟩]⟩ := by
  have h := C3_rotation_iff_threshold ⟨[⟨"abc", "ops", "t0", "t0", 0, none⟩]⟩ "ops"
      (fun _ => 130000) 120000 "t1" 99
  have h2 := C3_rotation_iff_threshold ⟨[⟨"abc", "ops", "t0", "t0", 0, none⟩]⟩ "idle"
      (fun _ => 130000) 120000 "t1" 99
  exact ⟨(h.2.1 ⟨"abc", "ops", "t0", "t0", 0, none⟩ (by decide) (by decide)).2 (by decide),
    h2.1 (by decide)⟩

/-- Witness for C10: a live entry whose group name contains the archival
marker is invisible to `listSessions` but reachable from `get`. -/
theorem C10_listLive_substring_only_witness :
    (createSessionForGroup ⟨[]⟩ "g__archived_x" "s1" "t1").1
        ∉ listSessions (createSessionForGroup ⟨[]⟩ "g__archived_x" "s1" "t1").2 ∧
    (getSessionForGroup (createSessionForGroup ⟨[]⟩ "g__archived_x" "s1" "t1").2
        "g__archived_x" "t2").1
      = some { (createSessionForGroup ⟨[]⟩ "g__archived_x" "s1" "t1").1 with
                 lastUsedAt := "t2" } := by
  have h := C10_listLive_substring_only ⟨[]⟩ "g__archived_x" "s1" "t1" "t2" (by decide)
  exact ⟨h.2.1, h.2.2⟩

/-! ### Token estimator (`src/token-estimator.ts`)

`estimateSessionTokens` locates the transcript for a session id and sums
character lengths of extracted text over its newline-delimited JSON
records.  File lookup and `JSON.parse` are host effects, so the transcript
is modelled as `Option (List TranscriptLine)`: `none` for "no transcript
file found", and each line either blank, malformed (`JSON.parse` throws;
the line is skipped), or a parsed record.  A JS-falsy / absent field is
`none` (a falsy-but-present string field would contribute 0 characters
either way).  `String(block.content)` is modelled as the already
stringified `content` field. -/

structure ContentBlock where
  text : Option String
  content : Option String
deriving DecidableEq, Repr

inductive JsonContent where
  | str (s : String)
  | blocks (bs : List ContentBlock)
  | other
deriving DecidableEq, Repr

structure TranscriptRecord where
  messageContent : Option JsonContent
  resultContent : Option JsonContent
deriving DecidableEq, Repr

inductive TranscriptLine where
  | blank
  | malformed
  | record (r : TranscriptRecord)
deriving DecidableEq, Repr

/-- Characters contributed by one block of `obj.message.content`:
`block.text.length` plus `String(block.content).length`. -/
def msgBlockChars (b : ContentBlock) : Nat :=
  (match b.text with | some t => t.length | none => 0)
  + (match b.content with | some c => c.length | none => 0)

/-- Characters contributed by one block of `obj.result.content`: the source
adds only `block.text.length` here. -/
def resBlockChars (b : ContentBlock) : Nat :=
  match b.text with | some t => t.length | none => 0

def msgContentChars : JsonContent → Nat
  | .str s => s.length
  | .blocks bs => (bs.map msgBlockChars).sum
  | .other => 0

def resContentChars : JsonContent → Nat
  | .str s => s.length
  | .blocks bs => (bs.map resBlockChars).sum
  | .other => 0

def lineChars : TranscriptLine → Nat
  | .blank => 0
  | .malformed => 0
  | .record r =>
      (match r.messageContent with | some c => msgContentChars c | none => 0)
      + (match r.resultContent with | some c => resContentChars c | none => 0)

def totalChars (ls : List TranscriptLine) : Nat :=
  (ls.map lineChars).sum

/-- `estimateSessionTokens`: 0 with no transcript, else
`Math.round(totalChars / 3.7)` (exact rational rounding in the model). -/
def estimateSessionTokens (transcript : Option (List TranscriptLine)) : ℤ :=
  match transcript with
  | none => 0
  | some ls => round ((totalChars ls : ℚ) / 3.7)

/-- The records of the parseable lines, in order. -/
def parsedRecords (ls : List TranscriptLine) : List TranscriptRecord :=
  ls.filterMap (fun l => match l with | .record r => some r | _ => none)

/-- Characters extracted from a single parsed record. -/
def recordChars (r : TranscriptRecord) : Nat :=
  (match r.messageContent with | some c => msgContentChars c | none => 0)
  + (match r.resultContent with | some c => resContentChars c | none => 0)

theorem totalChars_eq_parsed (ls : List TranscriptLine) :
    totalChars ls = ((parsedRecords ls).map recordChars).sum := by
  induction ls with
  | nil => rfl
  | cons l rest ih =>
    cases l with
    | blank => simpa [totalChars, parsedRecords, lineChars] using ih
    | malformed => simpa [totalChars, parsedRecords, lineChars] using ih
    | record r =>
      simp only [totalChars, parsedRecords, lineChars, List.map_cons, List.sum_cons,
        List.filterMap_cons] at *
      simp [recordChars, ih]

/-- End-to-end scenario C: three records totalling 370 characters plus one
malformed line. -/
def scenarioC : List TranscriptLine :=
  [ .record ⟨some (.str ⟨List.replicate 100 'a'⟩), none⟩,
    .record ⟨some (.str ⟨List.replicate 150 'b'⟩), none⟩,
    .record ⟨none, some (.str ⟨List.replicate 120 'c'⟩)⟩,
    .malformed ]

/-- **C6.** For every session, the estimate never fails and is an integer:
it is 0 when no transcript is found; otherwise it is
`round(totalChars / 3.7)` where `totalChars` sums the text extracted from
the parseable records; malformed lines are skipped individually without
aborting the scan, and the 370-character / one-malformed-line scenario
yields 100. -/
theorem C6_estimate_round_and_skip (ls : List TranscriptLine) :
    estimateSessionTokens none = 0 ∧
    estimateSessionTokens (some ls)
      = round ((((parsedRecords ls).map recordChars).sum : ℚ) / 3.7) ∧
    estimateSessionTokens (some (ls ++ [TranscriptLine.malformed]))
      = estimateSessionTokens (some ls) ∧
    estimateSessionTokens (some scenarioC) = 100 := by
  refine ⟨rfl, ?_, ?_, ?_⟩
  · simp [estimateSessionTokens, totalChars_eq_parsed]
  · simp [estimateSessionTokens, totalChars, lineChars]
  · have h : totalChars scenarioC = 370 := by
      simp [scenarioC, totalChars, lineChars, msgContentChars, resContentChars, String.length]
    simp only [estimateSessionTokens, h]
    norm_num [round_eq]

/-- Characters the specification text attributes to a tool-result block once
corrected: only the `text` field. -/
def specResBlockChars (b : ContentBlock) : Nat :=
  (b.text.map String.length).getD 0

/-- Characters of a message content block: `text` plus `content`. -/
def specMsgBlockChars (b : ContentBlock) : Nat :=
  (b.text.map String.length).getD 0 + (b.content.map String.length).getD 0

theorem resBlockChars_eq (b : ContentBlock) : resBlockChars b = specResBlockChars b := by
  cases b with
  | mk t c => cases t <;> simp [resBlockChars, specResBlockChars]

theorem msgBlockChars_eq (b : ContentBlock) : msgBlockChars b = specMsgBlockChars b := by
  cases b with
  | mk t c => cases t <;> cases c <;> simp [msgBlockChars, specMsgBlockChars]

/-- Counterexample to C7 as stated: a record whose tool-result content is a
single block carrying only a `content` field (10 characters) contributes
nothing — the estimate is 0, not `round(10 / 3.7) = 3`. -/
theorem C7_counterexample :
    estimateSessionTokens
        (some [.record ⟨none, some (.blocks [⟨none, some "0123456789"⟩])⟩]) = 0 ∧
    round ((10 : ℚ) / 3.7) = 3 := by
  constructor
  · have h : totalChars [.record ⟨none, some (.blocks [⟨none, some "0123456789"⟩])⟩] = 0 := by
      simp [totalChars, lineChars, resContentChars, resBlockChars]
    simp [estimateSessionTokens, h]
  · norm_num [round_eq]

/-- **C7 (amended).** For tool-result content blocks the character sum
includes only the `text` field of each block; both `text` and `content`
are counted only for user/assistant message content blocks. -/
theorem C7_toolresult_counts_text_only (bs : List ContentBlock) :
    estimateSessionTokens (some [.record ⟨none, some (.blocks bs)⟩])
      = round (((((bs.map specResBlockChars).sum : ℕ)) : ℚ) / 3.7) ∧
    estimateSessionTokens (some [.record ⟨some (.blocks bs), none⟩])
      = round (((((bs.map specMsgBlockChars).sum : ℕ)) : ℚ) / 3.7) := by
  have hres : List.map resBlockChars bs = List.map specResBlockChars bs :=
    List.map_congr_left (fun b _ => resBlockChars_eq b)
  have hmsg : List.map msgBlockChars bs = List.map specMsgBlockChars bs :=
    List.map_congr_left (fun b _ => msgBlockChars_eq b)
  constructor
  · have h : totalChars [.record ⟨none, some (.blocks bs)⟩]
        = (bs.map specResBlockChars).sum := by
      simp [totalChars, lineChars, resContentChars, hres]
    simp [estimateSessionTokens, h]
  · have h : totalChars [.record ⟨some (.blocks bs), none⟩]
        = (bs.map specMsgBlockChars).sum := by
      simp [totalChars, lineChars, msgContentChars, hmsg]
    simp [estimateSessionTokens, h]

/-! ### Reply-route message map (Telegram module)

A JS `Map` keyed by message id, persisted after every write.  A `Map`
iterates in insertion order, and `set` on an existing key updates the
value in place without moving the key, so the model is an association
list with unique keys. -/

def MAX_ENTRIES : Nat := 500

abbrev MsgMap := List (Nat × String)

/-- `messageSessionMap.set(botMessageId, group)`. -/
def mapSet : MsgMap → Nat → String → MsgMap
  | [], k, v => [(k, v)]
  | p :: rest, k, v =>
    if p.1 == k then (k, v) :: rest else p :: mapSet rest k v

/-- `saveMap`: `entries.slice(-MAX_ENTRIES)` — keep only the most recent
`MAX_ENTRIES` entries by insertion order. -/
def saveMapPrune (m : MsgMap) : MsgMap :=
  m.drop (m.length - MAX_ENTRIES)

/-- `recordMessageSession`: `map.set(...)` followed immediately by `saveMap()`. -/
def recordMessageSession (m : MsgMap) (botMessageId : Nat) (group : String) : MsgMap :=
  saveMapPrune (mapSet m botMessageId group)

/-- `routeByReplyTo`: `messageSessionMap.get(replyToMessageId) ?? null`. -/
def routeByReplyTo (m : MsgMap) (replyToMessageId : Nat) : Option String :=
  (m.find? (fun p => p.1 == replyToMessageId)).map (fun p => p.2)

/-- **C9.** After every write to the reply-route map the map holds at most
`MAX_ENTRIES` (500) entries; the truncation happens on the write itself
(`recordMessageSession` is `set` followed by the pruning save), and
eviction is oldest-first: the kept entries are exactly the final segment
of the updated insertion-ordered list, the dropped ones its prefix. -/
theorem C9_replyroute_bound (m : MsgMap) (k : Nat) (v : String) :
    (recordMessageSession m k v).length ≤ MAX_ENTRIES ∧
    MAX_ENTRIES = 500 ∧
    (mapSet m k v).take ((mapSet m k v).length - MAX_ENTRIES)
        ++ recordMessageSession m k v = mapSet m k v := by
  refine ⟨?_, rfl, ?_⟩
  · have h : (recordMessageSession m k v).length
        = (mapSet m k v).length - ((mapSet m k v).length - MAX_ENTRIES) := by
      simp [recordMessageSession, saveMapPrune]
    rw [h]
    omega
  · exact List.take_append_drop _ _

/-! ### Message classifier (`classifyMessage` in the Telegram module)

The spawned classifier process, `JSON.parse`, and the
`/\{[\s\S]*"category"[\s\S]*\}/` regex extraction are host effects,
provided as a `ClassifierEnv`.  `JsResult.thrown` marks a call that threw
(caught by the surrounding `try`). -/

inductive JsResult (α : Type) where
  | thrown
  | value (a : α)
deriving DecidableEq, Repr

/-- Shape of `JSON.parse(stdout)` as used: only the `result` field is read
(`parsed.result ?? stdout`). -/
structure TopLevelJson where
  result : Option String
deriving DecidableEq, Repr

/-- Shape of the JSON object extracted by the category regex. -/
structure CategoryJson where
  category : Option String
  reason : Option String
deriving DecidableEq, Repr

structure ClassifierEnv where
  spawnExit : JsResult (Int × String)
  parseTop : String → JsResult TopLevelJson
  matchCategory : String → Option String
  parseInner : String → JsResult CategoryJson

structure ClassifyResult where
  category : String
  reason : String
deriving DecidableEq, Repr

def classifyMessage (env : ClassifierEnv) : ClassifyResult :=
  match env.spawnExit with
  | .thrown => ⟨"general", "classifier_fallback"⟩
  | .value (code, stdout) =>
    if code != 0 then ⟨"general", "classifier_error"⟩
    else
      match env.parseTop stdout with
      | .thrown => ⟨"general", "classifier_fallback"⟩
      | .value parsed =>
        match env.matchCategory (parsed.result.getD stdout) with
        | some jsonStr =>
          match env.parseInner jsonStr with
          | .thrown => ⟨"general", "classifier_fallback"⟩
          | .value classification =>
            if classification.category == some "secretary" then
              ⟨"secretary", classification.reason.getD "classified"⟩
            else ⟨"general", "default"⟩
        | none => ⟨"general", "default"⟩

/-- **C8.** Classification never raises and always resolves to a category:
the result is always `secretary` or `general`, and it is `secretary`
exactly when the classifier call exited 0, its output parsed, the category
regex matched, the matched JSON parsed, and its `category` field equals
`"secretary"`; every failure and every non-primary category yields
`general`. -/
theorem C8_classifier_default_on_failure (env : ClassifierEnv) :
    ((classifyMessage env).category = "secretary"
      ∨ (classifyMessage env).category = "general") ∧
    ((classifyMessage env).category = "secretary" ↔
      ∃ stdout parsed jsonStr cls,
        env.spawnExit = .value (0, stdout) ∧
        env.parseTop stdout = .value parsed ∧
        env.matchCategory (parsed.result.getD stdout) = some jsonStr ∧
        env.parseInner jsonStr = .value cls ∧
        cls.category = some "secretary") := by
  cases hspawn : env.spawnExit with
  | thrown =>
    have hval : classifyMessage env = ⟨"general", "classifier_fallback"⟩ := by
      simp [classifyMessage, hspawn]
    simp [hval, hspawn]
  | value p =>
    obtain ⟨code, stdout⟩ := p
    by_cases hcode : code = 0
    · subst hcode
      cases htop : env.parseTop stdout with
      | thrown =>
        have hval : classifyMessage env = ⟨"general", "classifier_fallback"⟩ := by
          simp [classifyMessage, hspawn, htop]
        simp [hval, hspawn, htop]
      | value parsed =>
        cases hmatch : env.matchCategory (parsed.result.getD stdout) with
        | none =>
          have hval : classifyMessage env = ⟨"general", "default"⟩ := by
            simp [classifyMessage, hspawn, htop, hmatch]
          simp [hval, hspawn, htop, hmatch]
        | some jsonStr =>
          cases hinner : env.parseInner jsonStr with
          | thrown =>
            have hval : classifyMessage env = ⟨"general", "classifier_fallback"⟩ := by
              simp [classifyMessage, hspawn, htop, hmatch, hinner]
            simp [hval, hspawn, htop, hmatch, hinner]
          | value cls =>
            cases hcat : cls.category == some "secretary" with
            | true =>
              have hc : cls.category = some "secretary" := by simpa using hcat
              have hval : classifyMessage env
                  = ⟨"secretary", cls.reason.getD "classified"⟩ := by
                simp [classifyMessage, hspawn, htop, hmatch, hinner, hcat]
              rw [hval]
              refine ⟨Or.inl rfl, ?_⟩
              constructor
              · intro _
                exact ⟨stdout, parsed, jsonStr, cls, rfl, htop, hmatch, hinner, hc⟩
              · intro _
                rfl
            | false =>
              have hc : ¬ cls.category = some "secretary" := by simpa using hcat
              have hval : classifyMessage env = ⟨"general", "default"⟩ := by
                simp [classifyMessage, hspawn, htop, hmatch, hinner, hcat]
              simp [hval, hspawn, htop, hmatch, hinner, hc]
    · have hval : classifyMessage env = ⟨"general", "classifier_error"⟩ := by
        have hne : (code != 0) = true := by simpa using hcode
        simp [classifyMessage, hspawn, hne]
      simp [hval, hspawn, hcode]

/-! ### Per-key execution queue (`enqueue` in `src/runner.ts`)

```
const prev = groupQueues.get(key) ?? Promise.resolve();
const task = prev.then(fn, fn);
groupQueues.set(key, task.catch(() => {}));
return task;
```

The promise graph for one key is linear, so it is embedded structurally:
`Handler.job i` is the `i`-th queued task function `fn`; `.catch(h)` is
`.then(pass-through, h)`.  The settlement semantics takes the own
outcome of each task and duration as oracles; a handler fires one scheduler tick after
the promise it is attached to settles. -/

inductive JsOutcome where
  | ok
  | err
deriving DecidableEq, Repr

inductive Handler where
  | job (i : Nat)
  | unitFn
  | passThrough
deriving DecidableEq, Repr

inductive PExp where
  | resolved
  | thenP (p : PExp) (onF onR : Handler)
deriving DecidableEq, Repr

/-- One `enqueue` call: from the stored tail `prev` and the task index,
(promise returned to the caller, new stored tail). -/
def enqueueStep (prev : PExp) (i : Nat) : PExp × PExp :=
  let task := PExp.thenP prev (.job i) (.job i)
  (task, PExp.thenP task .passThrough .unitFn)

/-- The stored chain tail after `n` calls to `enqueue` for one key
(initially absent, treated as `Promise.resolve()`). -/
def chainTail : Nat → PExp
  | 0 => .resolved
  | n + 1 => (enqueueStep (chainTail n) n).2

/-- The promise `enqueue` returns to the caller of the `i`-th submission. -/
def taskPromise (i : Nat) : PExp := (enqueueStep (chainTail i) i).1

def runHandler (o : Nat → JsOutcome) (dur : Nat → Nat) :
    Handler → JsOutcome → Nat × JsOutcome
  | .job i, _ => (dur i, o i)
  | .unitFn, _ => (0, .ok)
  | .passThrough, x => (0, x)

/-- `(settle time, outcome)` of a promise expression. -/
def psettle (o : Nat → JsOutcome) (dur : Nat → Nat) : PExp → Nat × JsOutcome
  | .resolved => (0, .ok)
  | .thenP p f g =>
    let s := psettle o dur p
    let h := match s.2 with
      | .ok => runHandler o dur f s.2
      | .err => runHandler o dur g s.2
    (s.1 + 1 + h.1, h.2)

/-- The instant at which the function of the `i`-th task begins running. -/
def taskStart (o : Nat → JsOutcome) (dur : Nat → Nat) (i : Nat) : Nat :=
  (psettle o dur (chainTail i)).1 + 1

/-- The instant at which the promise of the `i`-th task settles. -/
def taskSettle (o : Nat → JsOutcome) (dur : Nat → Nat) (i : Nat) : Nat :=
  (psettle o dur (taskPromise i)).1

theorem taskPromise_eval (o : Nat → JsOutcome) (dur : Nat → Nat) (i : Nat) :
    psettle o dur (taskPromise i)
      = ((psettle o dur (chainTail i)).1 + 1 + dur i, o i) := by
  cases h2 : (psettle o dur (chainTail i)).2 <;>
    simp [taskPromise, enqueueStep, psettle, runHandler, h2]

theorem chainTail_succ (i : Nat) :
    chainTail (i + 1) = PExp.thenP (taskPromise i) .passThrough .unitFn := rfl

theorem chainTail_succ_time (o : Nat → JsOutcome) (dur : Nat → Nat) (i : Nat) :
    (psettle o dur (chainTail (i + 1))).1
      = (psettle o dur (taskPromise i)).1 + 1 := by
  rw [chainTail_succ]
  cases hoi : o i <;> cases hct : (psettle o dur (chainTail i)).2 <;>
    simp [psettle, taskPromise_eval, runHandler, hoi, hct]

theorem chainTail_ok (o : Nat → JsOutcome) (dur : Nat → Nat) (n : Nat) :
    (psettle o dur (chainTail n)).2 = .ok := by
  cases n with
  | zero => rfl
  | succ m =>
    rw [chainTail_succ]
    cases hom : o m <;> cases hct : (psettle o dur (chainTail m)).2 <;>
      simp [psettle, taskPromise_eval, runHandler, hom, hct]

theorem chainTail_time_indep (o o' : Nat → JsOutcome) (dur : Nat → Nat) (n : Nat) :
    (psettle o dur (chainTail n)).1 = (psettle o' dur (chainTail n)).1 := by
  induction n with
  | zero => rfl
  | succ m ih =>
    rw [chainTail_succ_time, chainTail_succ_time,
      taskPromise_eval, taskPromise_eval]
    simp [ih]

/-- **C2.** For every sequence of tasks enqueued under one key and every
assignment of outcomes and durations: each task begins only after the
promise of the previous task has settled (two scheduler ticks later); promises
settle in submission order; the caller of each task receives the
own outcome of that task (failures are surfaced); the stored tail always fulfils (a
failure is swallowed at the scheduling level and does not abort the
chain); and the schedule is independent of which tasks fail. -/
theorem C2_queue_fifo_per_key (o o' : Nat → JsOutcome) (dur : Nat → Nat) (i : Nat) :
    taskStart o dur (i + 1) = taskSettle o dur i + 2 ∧
    taskSettle o dur i < taskSettle o dur (i + 1) ∧
    (psettle o dur (taskPromise i)).2 = o i ∧
    (psettle o dur (chainTail (i + 1))).2 = JsOutcome.ok ∧
    taskStart o dur i = taskStart o' dur i := by
  refine ⟨?_, ?_, ?_, chainTail_ok o dur (i + 1), ?_⟩
  · rw [taskStart, chainTail_succ_time]
    rfl
  · rw [taskSettle, taskSettle, taskPromise_eval, taskPromise_eval,
      chainTail_succ_time, taskPromise_eval]
    simp
    omega
  · rw [taskPromise_eval]
  · rw [taskStart, taskStart, chainTail_time_indep o o' dur i]

/-- Witness for C2: with every task failing and duration 3, the second
task still starts two ticks after the first settles, and the first caller
observes the failure. -/
theorem C2_queue_fifo_per_key_witness :
    taskStart (fun _ => JsOutcome.err) (fun _ => 3) 1
      = taskSettle (fun _ => JsOutcome.err) (fun _ => 3) 0 + 2 ∧
    (psettle (fun _ => JsOutcome.err) (fun _ => 3) (taskPromise 0)).2 = JsOutcome.err := by
  have h := C2_queue_fifo_per_key (fun _ => JsOutcome.err) (fun _ => JsOutcome.ok)
      (fun _ => 3) 0
  exact ⟨h.1, h.2.2.1⟩

/-- Witness for C8: a fully successful classification run resolves to the
secretary category. -/
theorem C8_classifier_default_on_failure_witness :
    (classifyMessage ⟨.value (0, "s"), fun _ => .value ⟨some "r"⟩, fun _ => some "j",
        fun _ => .value ⟨some "secretary", none⟩⟩).category = "secretary" := by
  have h := C8_classifier_default_on_failure ⟨.value (0, "s"), fun _ => .value ⟨some "r"⟩,
      fun _ => some "j", fun _ => .value ⟨some "secretary", none⟩⟩
  exact h.2.mpr ⟨"s", ⟨some "r"⟩, "j", ⟨some "secretary", none⟩, rfl, rfl, rfl, rfl, rfl⟩

/-! ### Invocation executor (`execClaude` / `run` in `src/runner.ts`)

The external process (`runClaudeOnce`) is an oracle keyed by the model
configuration it is invoked with (the argument list is identical across
the primary run and the fallback retry); `JSON.parse` of the structured
output is the `parse` oracle.  The legacy single default session
(`getSession` / `createSession` from `sessions.ts`, used when no group is
configured) is an `Option String` alongside the group registry. -/

structure ModelConfig where
  model : String
  api : String
deriving DecidableEq, Repr

def toLowerS (s : String) : String := ⟨toLowerL s.toList⟩

/-- `sameModelConfig`: equal model (trimmed, case-insensitive) and equal
api key (trimmed). -/
def sameModelConfig (a b : ModelConfig) : Bool :=
  toLowerS (jsTrim a.model) == toLowerS (jsTrim b.model) && jsTrim a.api == jsTrim b.api

/-- `hasModelConfig`: a nonempty trimmed model or api field. -/
def hasModelConfig (v : ModelConfig) : Bool :=
  (jsTrim v.model).length > 0 || (jsTrim v.api).length > 0

def apostrophe : Char := Char.ofNat 39

/-- `RATE_LIMIT_PATTERN = /you('|')ve hit your limit/i` as a lowercase
character pattern; both apostrophe alternatives in the source file are the
ASCII apostrophe. -/
def rateLimitChars : List Char :=
  "you".toList ++ [apostrophe] ++ "ve hit your limit".toList

/-- `RATE_LIMIT_PATTERN.test(s)` — case-insensitive substring search. -/
def rateLimitTest (s : String) : Bool :=
  hasSub rateLimitChars (toLowerL s.toList)

/-- `extractRateLimitMessage(stdout, stderr)`: first of the two streams
whose trimmed text is nonempty and matches the pattern. -/
def extractRateLimitMessage (stdout stderr : String) : Option String :=
  let t1 := jsTrim stdout
  if t1 != "" && rateLimitTest t1 then some t1
  else
    let t2 := jsTrim stderr
    if t2 != "" && rateLimitTest t2 then some t2 else none

structure ExecOut where
  rawStdout : String
  stderr : String
  exitCode : Int
deriving DecidableEq, Repr

/-- The fields of `JSON.parse(rawStdout)` the executor reads:
`json.session_id` and `json.result` (`?? ""` applies when absent). -/
structure ParsedOutput where
  sessionIdField : String
  resultField : Option String
deriving DecidableEq, Repr

structure RunResult where
  stdout : String
  stderr : String
  exitCode : Int
deriving DecidableEq, Repr

structure RunnerSettings where
  model : String
  api : String
  fallbackModel : Option String
  fallbackApi : Option String
  rotationThreshold : Option Nat
deriving DecidableEq, Repr

structure RunOptions where
  sessionGroup : Option String
  modelOverride : Option String
  noSessionPersistence : Bool
deriving DecidableEq, Repr

/-- Daemon-wide session state: the group registry plus the legacy single
default session. -/
structure ExecState where
  reg : Registry
  defaultSession : Option String
deriving DecidableEq, Repr

/-- Observable outcome of one `execClaude` call.  `stateAfterLookup` is
the state once rotation and lookup are done (before any creation);
`finalExec` is the process result the tail of the function works with;
`attempts` lists the model configurations actually run, in order. -/
structure ExecOutcomeModel where
  result : RunResult
  state : ExecState
  stateAfterLookup : ExecState
  finalExec : ExecOut
  attempts : List ModelConfig
  createdGroupSession : Option (String × String)
  isNew : Bool
deriving DecidableEq, Repr

/-- `primaryConfig`: `{ model: modelOverride ?? settings.model, api: settings.api }`. -/
def primaryConfigOf (opts : RunOptions) (settings : RunnerSettings) : ModelConfig :=
  ⟨opts.modelOverride.getD settings.model, settings.api⟩

/-- `fallbackConfig`: `{ model: settings.fallback?.model ?? "", api: settings.fallback?.api ?? "" }`. -/
def fallbackConfigOf (settings : RunnerSettings) : ModelConfig :=
  ⟨settings.fallbackModel.getD "", settings.fallbackApi.getD ""⟩

def execClaude (st : ExecState) (opts : RunOptions) (settings : RunnerSettings)
    (runner : ModelConfig → ExecOut) (parse : String → Option ParsedOutput)
    (est : String → Nat) (now : String) (nowMs : Nat) : ExecOutcomeModel :=
  let group := opts.sessionGroup.getD "default"
  let threshold := effectiveThreshold settings.rotationThreshold
  let lookup : Option String × ExecState :=
    if opts.noSessionPersistence then (none, st)
    else
      match opts.sessionGroup with
      | some _ =>
        let reg1 := checkAndRotate st.reg group est threshold now nowMs
        let p := getSessionForGroup reg1 group now
        (Option.map SessionEntry.sessionId p.1, { st with reg := p.2 })
      | none => (st.defaultSession, st)
  let existing := lookup.1
  let st2 := lookup.2
  let isNew := existing.isNone
  let primaryConfig := primaryConfigOf opts settings
  let fallbackConfig := fallbackConfigOf settings
  let exec1 := runner primaryConfig
  let primaryRateLimit := extractRateLimitMessage exec1.rawStdout exec1.stderr
  let doFallback := primaryRateLimit.isSome && hasModelConfig fallbackConfig
      && ! sameModelConfig primaryConfig fallbackConfig
  let exec := if doFallback then runner fallbackConfig else exec1
  let attempts := if doFallback then [primaryConfig, fallbackConfig] else [primaryConfig]
  let rateLimitMessage := extractRateLimitMessage exec.rawStdout exec.stderr
  let post : String × ExecState × Option (String × String) :=
    match rateLimitMessage with
    | some m => (m, st2, none)
    | none =>
      if isNew && exec.exitCode == 0 then
        match parse exec.rawStdout with
        | some p =>
          let out := p.resultField.getD ""
          match opts.sessionGroup with
          | some _ =>
            (out,
              { st2 with reg := (createSessionForGroup st2.reg group p.sessionIdField now).2 },
              some (group, p.sessionIdField))
          | none =>
            if opts.noSessionPersistence then (out, st2, none)
            else (out, { st2 with defaultSession := some p.sessionIdField }, none)
        | none => (exec.rawStdout, st2, none)
      else (exec.rawStdout, st2, none)
  { result := ⟨post.1, exec.stderr, exec.exitCode⟩
    state := post.2.1
    stateAfterLookup := st2
    finalExec := exec
    attempts := attempts
    createdGroupSession := post.2.2
    isNew := isNew }

theorem getSessionForGroup_none (reg : Registry) (g now : String)
    (h : findGroup reg.sessions g = none) :
    getSessionForGroup reg g now = (none, reg) := by
  simp only [getSessionForGroup]
  rw [Prod.ext_iff]
  constructor
  · rw [getList_fst, h]; rfl
  · rw [getList_snd_of_none reg.sessions g now h]

theorem checkAndRotate_of_no_entry (reg : Registry) (g : String) (est : String → Nat)
    (θ : Nat) (now : String) (nowMs : Nat) (h : findGroup reg.sessions g = none) :
    checkAndRotate reg g est θ now nowMs = reg := by
  have h1 : (getList reg.sessions g now).1 = none := by rw [getList_fst, h]; rfl
  have h2 : (getList reg.sessions g now).2 = reg.sessions :=
    getList_snd_of_none reg.sessions g now h
  simp only [checkAndRotate, getSessionForGroup, h1, h2]

/-- **C4.** A persistent grouped invocation starting with no live entry for
its group, exiting cleanly and showing no rate-limit signature, parses the
structured output: on parse success the result is the parsed `result`
field and the registry gains an entry for the group with the parsed
session id and `contentTokens = 0`, reachable from `get`; on parse failure
the raw output is returned and no entry is created. -/
theorem C4_new_session_created (st : ExecState) (g : String) (opts : RunOptions)
    (settings : RunnerSettings) (runner : ModelConfig → ExecOut)
    (parse : String → Option ParsedOutput) (est : String → Nat)
    (now now' : String) (nowMs : Nat)
    (hgrp : opts.sessionGroup = some g)
    (hnp : opts.noSessionPersistence = false)
    (hempty : findGroup st.reg.sessions g = none)
    (hrl : extractRateLimitMessage (runner (primaryConfigOf opts settings)).rawStdout
        (runner (primaryConfigOf opts settings)).stderr = none)
    (hexit : (runner (primaryConfigOf opts settings)).exitCode = 0) :
    (∀ p, parse (runner (primaryConfigOf opts settings)).rawStdout = some p →
      ((execClaude st opts settings runner parse est now nowMs).result.stdout
          = p.resultField.getD "" ∧
        (getSessionForGroup
            (execClaude st opts settings runner parse est now nowMs).state.reg g now').1
          = some { sessionId := p.sessionIdField, group := g, createdAt := now,
                   lastUsedAt := now', contentTokens := 0, summary := none })) ∧
    (parse (runner (primaryConfigOf opts settings)).rawStdout = none →
      ((execClaude st opts settings runner parse est now nowMs).result.stdout
          = (runner (primaryConfigOf opts settings)).rawStdout ∧
        findGroup
            (execClaude st opts settings runner parse est now nowMs).state.reg.sessions g
          = none)) := by
  have hca : checkAndRotate st.reg g est (effectiveThreshold settings.rotationThreshold)
      now nowMs = st.reg :=
    checkAndRotate_of_no_entry st.reg g est _ now nowMs hempty
  have hget : getSessionForGroup st.reg g now = (none, st.reg) :=
    getSessionForGroup_none st.reg g now hempty
  constructor
  · intro p hp
    constructor
    · simp [execClaude, hgrp, hnp, hca, hget, hrl, hexit, hp]
    · have hstate : (execClaude st opts settings runner parse est now nowMs).state.reg
          = (createSessionForGroup st.reg g p.sessionIdField now).2 := by
        simp [execClaude, hgrp, hnp, hca, hget, hrl, hexit, hp]
      rw [hstate]
      simp only [createSessionForGroup, getSessionForGroup]
      rw [getList_fst, findGroup_createList _ g _ rfl]
      rfl
  · intro hp
    constructor
    · simp [execClaude, hgrp, hnp, hca, hget, hrl, hexit, hp]
    · have hstate : (execClaude st opts settings runner parse est now nowMs).state.reg
          = st.reg := by
        simp [execClaude, hgrp, hnp, hca, hget, hrl, hexit, hp]
      rw [hstate]
      exact hempty

/-- Witness for C4: from an empty registry, a clean structured result with
session id `abc123` creates the `ops` entry with zero tokens; the
invocation returns the parsed result text. -/
theorem C4_new_session_created_witness :
    ((execClaude ⟨⟨[]⟩, none⟩ ⟨some "ops", none, false⟩ ⟨"sonnet", "key", none, none, none⟩
        (fun _ => ⟨"X", "", 0⟩)
        (fun s => if s == "X" then some ⟨"abc123", some "hi"⟩ else none)
        (fun _ => 0) "t1" 5).result.stdout = "hi" ∧
      (getSessionForGroup
          (execClaude ⟨⟨[]⟩, none⟩ ⟨some "ops", none, false⟩ ⟨"sonnet", "key", none, none, none⟩
            (fun _ => ⟨"X", "", 0⟩)
            (fun s => if s == "X" then some ⟨"abc123", some "hi"⟩ else none)
            (fun _ => 0) "t1" 5).state.reg "ops" "t2").1
        = some ⟨"abc123", "ops", "t1", "t2", 0, none⟩) := by
  have h := C4_new_session_created ⟨⟨[]⟩, none⟩ "ops" ⟨some "ops", none, false⟩
      ⟨"sonnet", "key", none, none, none⟩ (fun _ => ⟨"X", "", 0⟩)
      (fun s => if s == "X" then some ⟨"abc123", some "hi"⟩ else none)
      (fun _ => 0) "t1" "t2" 5 rfl rfl rfl (by decide) rfl
  exact h.1 ⟨"abc123", some "hi"⟩ (by decide)

/-- The rate-limit message itself as a string (for concrete tests). -/
def rateLimitSample : String := ⟨rateLimitChars⟩

/-- **C5.** When the primary run shows the rate-limit signature, the
executor retries exactly once with the fallback configuration if and only
if a fallback configuration is present (`hasModelConfig`) and distinct
from the primary (`sameModelConfig` false); and whenever the rate-limit
signature is present in the final process result, the rate-limit message
itself is the reported output, no registry entry is created, and the
session state is exactly the post-lookup state (no structured-output
parsing happens). -/
theorem C5_rate_limit_retry_once (st : ExecState) (opts : RunOptions)
    (settings : RunnerSettings) (runner : ModelConfig → ExecOut)
    (parse : String → Option ParsedOutput) (est : String → Nat)
    (now : String) (nowMs : Nat) :
    ((extractRateLimitMessage (runner (primaryConfigOf opts settings)).rawStdout
        (runner (primaryConfigOf opts settings)).stderr).isSome = true →
      (((execClaude st opts settings runner parse est now nowMs).attempts
          = [primaryConfigOf opts settings, fallbackConfigOf settings]) ↔
        (hasModelConfig (fallbackConfigOf settings) = true ∧
          sameModelConfig (primaryConfigOf opts settings) (fallbackConfigOf settings) = false)) ∧
      (¬(hasModelConfig (fallbackConfigOf settings) = true ∧
          sameModelConfig (primaryConfigOf opts settings) (fallbackConfigOf settings) = false) →
        (execClaude st opts settings runner parse est now nowMs).attempts
          = [primaryConfigOf opts settings])) ∧
    (∀ m, extractRateLimitMessage
        (execClaude st opts settings runner parse est now nowMs).finalExec.rawStdout
        (execClaude st opts settings runner parse est now nowMs).finalExec.stderr = some m →
      ((execClaude st opts settings runner parse est now nowMs).result.stdout = m ∧
        (execClaude st opts settings runner parse est now nowMs).createdGroupSession = none ∧
        (execClaude st opts settings runner parse est now nowMs).state
          = (execClaude st opts settings runner parse est now nowMs).stateAfterLookup)) := by
  constructor
  · intro hsome
    cases hhas : hasModelConfig (fallbackConfigOf settings) with
    | false =>
      constructor
      · constructor
        · intro hat
          have : (execClaude st opts settings runner parse est now nowMs).attempts
              = [primaryConfigOf opts settings] := by
            simp [execClaude, hsome, hhas]
          rw [this] at hat
          simp at hat
        · intro hc
          exact absurd hc.1 (by simp [hhas])
      · intro _
        simp [execClaude, hsome, hhas]
    | true =>
      cases hsame : sameModelConfig (primaryConfigOf opts settings) (fallbackConfigOf settings) with
      | true =>
        constructor
        · constructor
          · intro hat
            have : (execClaude st opts settings runner parse est now nowMs).attempts
                = [primaryConfigOf opts settings] := by
              simp [execClaude, hsome, hhas, hsame]
            rw [this] at hat
            simp at hat
          · intro hc
            exact absurd hc.2 (by simp [hsame])
        · intro _
          simp [execClaude, hsome, hhas, hsame]
      | false =>
        constructor
        · constructor
          · intro _
            exact ⟨rfl, rfl⟩
          · intro _
            simp [execClaude, hsome, hhas, hsame]
        · intro hc
          exact absurd ⟨rfl, rfl⟩ hc
  · intro m hm
    -- case on whether the fallback retry happened, then reduce the tail
    by_cases hdf : ((extractRateLimitMessage (runner (primaryConfigOf opts settings)).rawStdout
          (runner (primaryConfigOf opts settings)).stderr).isSome
        && hasModelConfig (fallbackConfigOf settings)
        && ! sameModelConfig (primaryConfigOf opts settings) (fallbackConfigOf settings)) = true
    · have hfe : (execClaude st opts settings runner parse est now nowMs).finalExec
          = runner (fallbackConfigOf settings) := by
        simp [execClaude, hdf]
      rw [hfe] at hm
      refine ⟨?_, ?_, ?_⟩ <;> simp [execClaude, hdf, hm]
    · have hdf' : ((extractRateLimitMessage (runner (primaryConfigOf opts settings)).rawStdout
          (runner (primaryConfigOf opts settings)).stderr).isSome
        && hasModelConfig (fallbackConfigOf settings)
        && ! sameModelConfig (primaryConfigOf opts settings) (fallbackConfigOf settings)) = false := by
        simpa using hdf
      have hfe : (execClaude st opts settings runner parse est now nowMs).finalExec
          = runner (primaryConfigOf opts settings) := by
        simp [execClaude, hdf']
      rw [hfe] at hm
      have hcond : ¬(hasModelConfig (fallbackConfigOf settings) = true ∧
          sameModelConfig (primaryConfigOf opts settings) (fallbackConfigOf settings) = false) := by
        intro hc
        apply hdf
        simp [hm, hc.1, hc.2]
      refine ⟨?_, ?_, ?_⟩ <;> simp [execClaude, hdf', hm, hcond]

/-- Witness for C5: a primary run hitting the limit with a distinct
fallback configured retries once with the fallback and reports the
rate-limit message; no entry is created. -/
theorem C5_rate_limit_retry_once_witness :
    ((execClaude ⟨⟨[]⟩, none⟩ ⟨some "ops", none, false⟩ ⟨"m1", "a1", some "m2", some "a2", none⟩
        (fun _ => ⟨rateLimitSample, "", 1⟩) (fun _ => none)
        (fun _ => 0) "t1" 5).attempts = [⟨"m1", "a1"⟩, ⟨"m2", "a2"⟩] ∧
      (execClaude ⟨⟨[]⟩, none⟩ ⟨some "ops", none, false⟩ ⟨"m1", "a1", some "m2", some "a2", none⟩
        (fun _ => ⟨rateLimitSample, "", 1⟩) (fun _ => none)
        (fun _ => 0) "t1" 5).result.stdout = rateLimitSample ∧
      (execClaude ⟨⟨[]⟩, none⟩ ⟨some "ops", none, false⟩ ⟨"m1", "a1", some "m2", some "a2", none⟩
        (fun _ => ⟨rateLimitSample, "", 1⟩) (fun _ => none)
        (fun _ => 0) "t1" 5).createdGroupSession = none) := by
  have h := C5_rate_limit_retry_once ⟨⟨[]⟩, none⟩ ⟨some "ops", none, false⟩
      ⟨"m1", "a1", some "m2", some "a2", none⟩
      (fun _ => ⟨rateLimitSample, "", 1⟩) (fun _ => none) (fun _ => 0) "t1" 5
  have h1 := (h.1 (by decide)).1.mpr ⟨by decide, by decide⟩
  have h2 := h.2 rateLimitSample (by decide)
  exact ⟨h1, h2.1, h2.2.1⟩

end ClaudeClaw
